import Mathlib

/-!
Verification of the cuttlefish launch core: the OpenWrt access-point
feature (host/commands/run_cvd/launch/open_wrt.cpp) and the control-plane
gRPC service handler (host/libs/control_env/grpc_service_handler.cc),
shallowly embedded in Lean.
-/

namespace Cuttlefish

/-- An argument contributed to a crosvm Command.  Each `CrosvmBuilder`
helper and each `AddParameter` call in `OpenWrt::Commands` contributes its
own tagged fragment, mirroring the order of calls in the source. -/
inductive Arg where
  | controlSocket (path : String)
  | vhostUserMac80211Hwsim (path : String)
  | tap (name : String)
  | seccompPolicyDir (dir : String)
  | disableSandbox
  | rwDisk (path : String)
  | roDisk (path : String)
  | kernelParams (s : String)
  | serialConsole (path : String)
  | hvc (path : String)
  | positional (path : String)
  | teeProcessName (name : String)
deriving DecidableEq

/-- A Command: binary path plus its ordered argument list
(common/libs/utils/subprocess.h, used write-once here). -/
structure Command where
  binary : String
  args : List Arg
deriving DecidableEq

/-- The slice of `CuttlefishConfig` read by `OpenWrt`. -/
structure CuttlefishConfig where
  crosvm_binary : String
  vhost_user_mac80211_hwsim : String
  enable_sandbox : Bool
  seccomp_policy_dir : String
  ap_image_dev_path : String
  ap_kernel_image : String
  vm_manager : String

/-- The slice of `CuttlefishConfig::InstanceSpecific` read by `OpenWrt`.
Modelled from the spec: the per-instance path helpers
(`PerInstanceInternalPath`, `PerInstancePath`, `PerInstanceLogPath`) are
the Resource Allocator's deterministic per-instance path functions,
not under src/, kept abstract as function fields. -/
structure InstanceSpecific where
  wifi_tap_name : String
  start_ap : Bool
  PerInstanceInternalPath : String → String
  PerInstancePath : String → String
  PerInstanceLogPath : String → String

/-- Host-side state that `OpenWrt::Commands` consults: whether the legacy
bridge lease file `/var/run/cuttlefish-dnsmasq-cvd-wbr.leases` exists
(`FileExists`), whether the wifi tap fd is open (`SharedFD::IsOpen`),
the outcome of `ReleaseDhcpLeases` when it is invoked, and the instance
index returned by `ForCurrentInstance(1)`. -/
structure HostEnv where
  legacyLeaseFileExists : Bool
  wifiTapOpen : Bool
  releaseDhcpLeasesSucceeds : Bool
  instanceIndex : Nat

/-- The last octet of the per-instance DHCP server IP:
`(std::uint8_t)(ForCurrentInstance(1) * 4 - 3)` — signed int arithmetic
truncated into an 8-bit unsigned octet. -/
def dhcpLastOctet (i : Nat) : Nat :=
  (((i : Int) * 4 - 3) % 256).toNat

/-- Modelled from the spec: `LogTeeCreator::CreateLogTee` (not under src/)
produces the relay Command that duplicates `cmd`'s output to a log file
named after `procName` while preserving the stream (spec 4.4). -/
def CreateLogTee (cmd : Command) (procName : String) : Command :=
  { binary := "log_tee"
    args := [Arg.teeProcessName procName, Arg.positional cmd.binary] }

/-- Everything `OpenWrt::Commands` produces or observably does: the
returned Command vector, the built crosvm Command `ap_cmd`, whether the
stale-lease workaround ran, the lease file and DHCP server IP it used,
and whether the failure of `ReleaseDhcpLeases` was logged. -/
structure CommandsResult where
  commands : List Command
  apCmd : Command
  releaseAttempted : Bool
  leaseFile : Option String
  dhcpServerIp : Option (List Nat)
  releaseErrorLogged : Bool

/-- Shallow embedding of `OpenWrt::Commands()`
(open_wrt.cpp lines 35–91), following the source statement by statement.
The `CrosvmBuilder` helpers (`AddControlSocket`, `AddTap`,
`AddReadWriteDisk`, `AddReadOnlyDisk`, `AddSerialConsoleReadOnly`,
`AddHvcReadOnly`), not under src/, are modelled from the spec as each
appending its own tagged argument fragment. The function never returns
an error: the source body has no failure path inside its `Result` type. -/
def OpenWrt.Commands (config : CuttlefishConfig) (inst : InstanceSpecific)
    (env : HostEnv) : CommandsResult :=
  let crosvm_for_ap_socket := "ap_control.sock"
  let args0 := [Arg.controlSocket (inst.PerInstanceInternalPath crosvm_for_ap_socket)]
  let args1 :=
    if config.vhost_user_mac80211_hwsim ≠ "" then
      args0 ++ [Arg.vhostUserMac80211Hwsim config.vhost_user_mac80211_hwsim]
    else args0
  let args2 := args1 ++ [Arg.tap inst.wifi_tap_name]
  let attempted := !env.legacyLeaseFileExists && env.wifiTapOpen
  let lease_file :=
    if attempted then
      some ("/var/run/cuttlefish-dnsmasq-cvd-wbr-" ++ toString env.instanceIndex
            ++ ".leases")
    else none
  let dhcp_server_ip :=
    if attempted then some [192, 168, 96, dhcpLastOctet env.instanceIndex]
    else none
  let errorLogged := attempted && !env.releaseDhcpLeasesSucceeds
  let args3 := args2 ++
    (if config.enable_sandbox then [Arg.seccompPolicyDir config.seccomp_policy_dir]
     else [Arg.disableSandbox])
  let args4 := args3 ++ [Arg.rwDisk (inst.PerInstancePath "ap_overlay.img")]
  let args5 := args4 ++ [Arg.roDisk (inst.PerInstancePath "persistent_composite.img")]
  let args6 := args5 ++ [Arg.kernelParams ("root=" ++ config.ap_image_dev_path)]
  let boot_logs_path := inst.PerInstanceLogPath "crosvm_openwrt_boot.log"
  let logs_path := inst.PerInstanceLogPath "crosvm_openwrt.log"
  let args7 := args6 ++ [Arg.serialConsole boot_logs_path, Arg.hvc logs_path]
  let args8 := args7 ++ [Arg.positional config.ap_kernel_image]
  let ap_cmd : Command := { binary := config.crosvm_binary, args := args8 }
  { commands := [CreateLogTee ap_cmd "openwrt", ap_cmd]
    apCmd := ap_cmd
    releaseAttempted := attempted
    leaseFile := lease_file
    dhcpServerIp := dhcp_server_ip
    releaseErrorLogged := errorLogged }

/-- Modelled from the spec: `vm_manager::CrosvmManager::name()` is not
under src/; the spec names the backend `crosvm`. -/
def CrosvmManagerName : String := "crosvm"

/-- The qemu backend name, `vm_manager::QemuManager::name()`, from
host/libs/vm_manager/qemu_manager.h line 32. -/
def QemuManagerName : String := "qemu_cli"

/-- Shallow embedding of `OpenWrt::Enabled()` (open_wrt.cpp lines 95–102).
The `ENFORCE_MAC80211_HWSIM` preprocessor flag becomes the first
parameter: when it is absent the function is the constant `false`. -/
def OpenWrt.Enabled (enforce_mac80211_hwsim : Bool) (config : CuttlefishConfig)
    (inst : InstanceSpecific) : Bool :=
  if enforce_mac80211_hwsim then
    inst.start_ap && (config.vm_manager == CrosvmManagerName)
  else
    false

/-! ## Control-plane gRPC service handler
(host/libs/control_env/grpc_service_handler.cc)

The external `grpc_cli ls <address>` invocation is modelled by its list of
output lines: an environment `List (String × List String)` maps each
server address to the raw service-name lines that `RunGrpcCommand`
produces for it (the source recovers exactly these lines via `getline`,
or via `Trim` plus `Split` on newline). -/

/-- Constant `kServiceServerReflection` (grpc_service_handler.cc line 39). -/
def kServiceServerReflection : String := "grpc.reflection.v1alpha.ServerReflection"

/-- Constant `kServiceHealth` (grpc_service_handler.cc line 41). -/
def kServiceHealth : String := "grpc.health.v1.Health"

/-- Modelled from android-base `EndsWith` (an external library): does `s`
end with `suffix`? -/
def EndsWith (s suffix : String) : Bool :=
  suffix.toList.isSuffixOf s.toList

/-- Worker for `Split`; `acc` is the current field accumulated in
reverse. -/
def splitAux (delims : List Char) : List Char → List Char → List (List Char)
  | acc, [] => [acc.reverse]
  | acc, c :: cs =>
    if c ∈ delims then acc.reverse :: splitAux delims [] cs
    else splitAux delims (c :: acc) cs

/-- Modelled from android-base `Split` (external library): splits `s` at
every character occurring in `delims`, preserving empty fields; always
returns at least one field. -/
def Split (s : String) (delims : String) : List String :=
  (splitAux delims.toList [] s.toList).map List.asString

/-- Shallow embedding of `GetServiceList` (grpc_service_handler.cc lines
106–125) on the raw output lines of `grpc_cli ls`: drops the reflection
and health services, keeps every other line in order. -/
def GetServiceList (rawLines : List String) : List String :=
  rawLines.filter fun s =>
    !(s == kServiceServerReflection || s == kServiceHealth)

/-- Does the address expose (after `GetServiceList` filtering) a service
whose full name ends with `service_name`? This is the per-address test of
the candidate loop in `GetServerAddress`. -/
def serviceMatch (service_name : String) (p : String × List String) : Bool :=
  (GetServiceList p.2).any fun s => EndsWith s service_name

/-- The candidate list of `GetServerAddress` (grpc_service_handler.cc
lines 130–139): each address is appended at most once (the inner loop
breaks at the first matching service). -/
def GetServerAddressCandidates (env : List (String × List String))
    (service_name : String) : List String :=
  match env with
  | [] => []
  | p :: rest =>
    if serviceMatch service_name p then
      p.1 :: GetServerAddressCandidates rest service_name
    else
      GetServerAddressCandidates rest service_name

/-- Shallow embedding of `GetServerAddress` (grpc_service_handler.cc
lines 127–145): the two `CF_EXPECT` guards on the candidate count, then
`candidates[0]`. -/
def GetServerAddress (env : List (String × List String))
    (service_name : String) : Except String String :=
  match GetServerAddressCandidates env service_name with
  | [] => Except.error (service_name ++ " is not found.")
  | [addr] => Except.ok addr
  | _ :: _ :: _ => Except.error (service_name ++ " is ambiguous.")

/-- Shallow embedding of the service enumeration of `HandleLsCmd` with no
arguments (grpc_service_handler.cc lines 203–222): `lines` is the
newline-split, trimmed concatenation of every server's `grpc_cli ls`
output; reflection and health lines are skipped and every other line
contributes its last dot-separated component to the `services` array. -/
def HandleLsCmd0Services (lines : List String) : List String :=
  (lines.filter fun s =>
      !(s == kServiceServerReflection || s == kServiceHealth)).map
    fun s => (Split s ".").getLastD ""

/-- Fixture: a concrete configuration for evaluating `OpenWrt.Commands`. -/
def sampleConfig : CuttlefishConfig :=
  { crosvm_binary := "crosvm", vhost_user_mac80211_hwsim := "",
    enable_sandbox := true, seccomp_policy_dir := "/pol",
    ap_image_dev_path := "/dev/vda", ap_kernel_image := "kernel",
    vm_manager := "crosvm" }

/-- Fixture: a concrete instance for evaluating `OpenWrt.Commands`. -/
def sampleInstance : InstanceSpecific :=
  { wifi_tap_name := "cvd-wtap-01", start_ap := true,
    PerInstanceInternalPath := fun s => "/instances/cvd-1/internal/" ++ s,
    PerInstancePath := fun s => "/instances/cvd-1/" ++ s,
    PerInstanceLogPath := fun s => "/instances/cvd-1/logs/" ++ s }

/-! ## Supporting lemmas -/

/-- The candidate loop of `GetServerAddress` collects exactly the first
components of the environment entries passing `serviceMatch`. -/
lemma GetServerAddressCandidates_eq (env : List (String × List String))
    (service_name : String) :
    GetServerAddressCandidates env service_name =
      (env.filter (serviceMatch service_name)).map Prod.fst := by
  induction env with
  | nil => rfl
  | cons p rest ih =>
    by_cases h : serviceMatch service_name p <;>
      simp [GetServerAddressCandidates, List.filter_cons, h, ih]

/-- No field produced by `splitAux` contains a delimiter character,
provided the accumulator holds none. -/
lemma splitAux_no_delim (delims : List Char) :
    ∀ (cs acc : List Char), (∀ c ∈ acc, c ∉ delims) →
      ∀ piece ∈ splitAux delims acc cs, ∀ c ∈ piece, c ∉ delims := by
  intro cs
  induction cs with
  | nil =>
    intro acc hacc piece hp c hcp
    simp [splitAux] at hp
    subst hp
    exact hacc c (List.mem_reverse.mp hcp)
  | cons ch cs ih =>
    intro acc hacc piece hp c hcp
    by_cases hd : ch ∈ delims
    · simp [splitAux, hd] at hp
      rcases hp with hp | hp
      · subst hp
        exact hacc c (List.mem_reverse.mp hcp)
      · exact ih [] (by simp) piece hp c hcp
    · simp [splitAux, hd] at hp
      refine ih (ch :: acc) ?_ piece hp c hcp
      intro x hx
      rcases List.mem_cons.mp hx with rfl | hx
      · exact hd
      · exact hacc x hx

/-- No field of `Split s "."` contains a dot. -/
lemma split_pieces_no_delim (s piece : String) (hp : piece ∈ Split s ".") :
    Char.ofNat 46 ∉ piece.toList := by
  unfold Split at hp
  rw [List.mem_map] at hp
  obtain ⟨l, hl, rfl⟩ := hp
  intro hc
  exact splitAux_no_delim [Char.ofNat 46] s.toList [] (by simp) l hl
    (Char.ofNat 46) hc (by decide)

/-- The last element with default is either a member or the default. -/
lemma getLastD_cases {α : Type} (l : List α) (d : α) :
    l.getLastD d ∈ l ∨ l.getLastD d = d := by
  cases hl : l.getLast? with
  | none =>
    right
    rw [List.getLastD_eq_getLast?, hl]
    rfl
  | some a =>
    left
    rw [List.getLastD_eq_getLast?, hl]
    obtain ⟨hne, rfl⟩ := List.mem_getLast?_eq_getLast (Option.mem_def.mpr hl)
    exact List.getLast_mem hne

/-! ## Claim theorems -/

/-- C1: for every configuration, the access-point crosvm Command's
argument list carries a seccomp-policy-dir flag exactly when
sandbox-enabled is true, carries `--disable-sandbox` exactly when it is
false, and always exactly one of the two. -/
theorem sandbox_flag_exclusive (config : CuttlefishConfig)
    (inst : InstanceSpecific) (env : HostEnv) :
    ((∃ d, Arg.seccompPolicyDir d ∈ (OpenWrt.Commands config inst env).apCmd.args) ↔
      config.enable_sandbox = true) ∧
    (Arg.disableSandbox ∈ (OpenWrt.Commands config inst env).apCmd.args ↔
      config.enable_sandbox = false) ∧
    (((∃ d, Arg.seccompPolicyDir d ∈ (OpenWrt.Commands config inst env).apCmd.args) ∧
        Arg.disableSandbox ∉ (OpenWrt.Commands config inst env).apCmd.args) ∨
      ((Arg.disableSandbox ∈ (OpenWrt.Commands config inst env).apCmd.args) ∧
        ∀ d, Arg.seccompPolicyDir d ∉ (OpenWrt.Commands config inst env).apCmd.args)) := by
  by_cases hv : config.vhost_user_mac80211_hwsim = "" <;>
    cases hs : config.enable_sandbox <;>
    simp [OpenWrt.Commands, hv, hs]

/-- C2 counterexample: at instance index 65 the stored last octet is
4 * 65 - 3 truncated to 8 bits, namely 1, not 257: the claimed exact
equality with 4 * i - 3 fails. -/
theorem dhcp_octet_truncated_at_65 :
    (OpenWrt.Commands sampleConfig sampleInstance
        ⟨false, true, true, 65⟩).dhcpServerIp = some [192, 168, 96, 1] ∧
      (4 * 65 - 3 : Nat) ≠ 1 := ⟨by decide, by decide⟩

/-- C2 amended: whenever the lease-release step runs and the instance
index lies in 1..64 (so that 4 * i - 3 fits in the 8-bit octet), the DHCP
server IP is 192.168.96.(4 * i - 3) exactly. -/
theorem dhcp_octet_exact_in_range (config : CuttlefishConfig)
    (inst : InstanceSpecific) (env : HostEnv)
    (h1 : env.legacyLeaseFileExists = false) (h2 : env.wifiTapOpen = true)
    (h3 : 1 ≤ env.instanceIndex) (h4 : env.instanceIndex ≤ 64) :
    (OpenWrt.Commands config inst env).dhcpServerIp =
      some [192, 168, 96, 4 * env.instanceIndex - 3] := by
  have hoct : dhcpLastOctet env.instanceIndex = 4 * env.instanceIndex - 3 := by
    unfold dhcpLastOctet
    have hlt : ((env.instanceIndex : Int) * 4 - 3) % 256 =
        (env.instanceIndex : Int) * 4 - 3 :=
      Int.emod_eq_of_lt (by omega) (by omega)
    rw [hlt]
    omega
  simp [OpenWrt.Commands, h1, h2, hoct]

/-- Witness for C2 amended: index 5 yields last octet 17. -/
theorem dhcp_octet_exact_in_range_witness :
    (OpenWrt.Commands sampleConfig sampleInstance
        ⟨false, true, true, 5⟩).dhcpServerIp = some [192, 168, 96, 17] := by
  have h := dhcp_octet_exact_in_range sampleConfig sampleInstance
    ⟨false, true, true, 5⟩ rfl rfl (by decide) (by decide)
  simpa using h

/-- C3: the stale-lease release step runs if and only if the legacy
bridge lease file is absent and the wifi tap handle is open. -/
theorem release_attempted_iff (config : CuttlefishConfig)
    (inst : InstanceSpecific) (env : HostEnv) :
    (OpenWrt.Commands config inst env).releaseAttempted = true ↔
      env.legacyLeaseFileExists = false ∧ env.wifiTapOpen = true := by
  simp [OpenWrt.Commands]

/-- C4: the read-write overlay disk argument appears strictly before the
read-only composite disk argument in the access-point Command. -/
theorem overlay_before_composite (config : CuttlefishConfig)
    (inst : InstanceSpecific) (env : HostEnv) :
    List.Sublist
      [Arg.rwDisk (inst.PerInstancePath "ap_overlay.img"),
       Arg.roDisk (inst.PerInstancePath "persistent_composite.img")]
      (OpenWrt.Commands config inst env).apCmd.args := by
  show List.Sublist ([Arg.rwDisk (inst.PerInstancePath "ap_overlay.img")] ++
    [Arg.roDisk (inst.PerInstancePath "persistent_composite.img")]) _
  simp only [OpenWrt.Commands, List.append_assoc]
  exact (((List.Sublist.append (List.Sublist.refl _)
      (List.sublist_append_left _ _)).trans
      (List.sublist_append_right _ _)).trans
      (List.sublist_append_right _ _)).trans
      (List.sublist_append_right _ _)

/-- C5: the returned Command list is exactly the log tee immediately
followed by the access-point crosvm Command it tees. -/
theorem tee_immediately_before_primary (config : CuttlefishConfig)
    (inst : InstanceSpecific) (env : HostEnv) :
    (OpenWrt.Commands config inst env).commands =
      [CreateLogTee (OpenWrt.Commands config inst env).apCmd "openwrt",
       (OpenWrt.Commands config inst env).apCmd] := rfl

/-- C6: failure of `ReleaseDhcpLeases` is non-fatal: the returned Command
list does not depend on its outcome, an error is logged exactly when the
step ran and failed, and the full two-Command list is still returned. -/
theorem lease_failure_nonfatal (config : CuttlefishConfig)
    (inst : InstanceSpecific) (env : HostEnv) (b : Bool) :
    ((OpenWrt.Commands config inst
        { env with releaseDhcpLeasesSucceeds := b }).commands =
      (OpenWrt.Commands config inst env).commands) ∧
    ((OpenWrt.Commands config inst env).releaseErrorLogged =
      ((OpenWrt.Commands config inst env).releaseAttempted &&
        !env.releaseDhcpLeasesSucceeds)) ∧
    (OpenWrt.Commands config inst env).commands =
      [CreateLogTee (OpenWrt.Commands config inst env).apCmd "openwrt",
       (OpenWrt.Commands config inst env).apCmd] :=
  ⟨rfl, rfl, rfl⟩

/-- C7: the guest AP kernel image path is the last argument of the
access-point crosvm Command. -/
theorem kernel_image_last (config : CuttlefishConfig)
    (inst : InstanceSpecific) (env : HostEnv) :
    (OpenWrt.Commands config inst env).apCmd.args.getLast? =
      some (Arg.positional config.ap_kernel_image) := by
  by_cases hv : config.vhost_user_mac80211_hwsim = "" <;>
    cases hs : config.enable_sandbox <;>
    simp [OpenWrt.Commands, hv, hs]

/-- C8: the server-address lookup errs with a not-found message when no
address exposes a matching service, errs with an ambiguity message when
two or more do, and returns the unique matching address otherwise. -/
theorem GetServerAddress_spec (env : List (String × List String))
    (service_name : String) :
    (env.countP (serviceMatch service_name) = 0 →
      GetServerAddress env service_name =
        Except.error (service_name ++ " is not found.")) ∧
    (2 ≤ env.countP (serviceMatch service_name) →
      GetServerAddress env service_name =
        Except.error (service_name ++ " is ambiguous.")) ∧
    (env.countP (serviceMatch service_name) = 1 →
      ∃ p, p ∈ env ∧ serviceMatch service_name p = true ∧
        GetServerAddress env service_name = Except.ok p.1 ∧
        ∀ q ∈ env, serviceMatch service_name q = true → q.1 = p.1) := by
  have hc := GetServerAddressCandidates_eq env service_name
  have hlen : (GetServerAddressCandidates env service_name).length =
      env.countP (serviceMatch service_name) := by
    rw [hc, List.length_map, List.countP_eq_length_filter]
  refine ⟨?_, ?_, ?_⟩
  · intro h0
    have hnil : GetServerAddressCandidates env service_name = [] :=
      List.length_eq_zero.mp (by rw [hlen, h0])
    unfold GetServerAddress
    rw [hnil]
  · intro h2
    rcases hcand : GetServerAddressCandidates env service_name with _ | ⟨a, _ | ⟨b, t⟩⟩
    · rw [hcand] at hlen
      simp at hlen
      omega
    · rw [hcand] at hlen
      simp at hlen
      omega
    · unfold GetServerAddress
      rw [hcand]
  · intro h1
    have hfl : (env.filter (serviceMatch service_name)).length = 1 := by
      rw [← List.countP_eq_length_filter]
      exact h1
    obtain ⟨p, hp⟩ := List.length_eq_one.mp hfl
    have hpmem : p ∈ env.filter (serviceMatch service_name) := by
      rw [hp]
      simp
    refine ⟨p, (List.mem_filter.mp hpmem).1, (List.mem_filter.mp hpmem).2, ?_, ?_⟩
    · unfold GetServerAddress
      rw [hc, hp]
      rfl
    · intro q hq hmq
      have hqf : q ∈ env.filter (serviceMatch service_name) :=
        List.mem_filter.mpr ⟨hq, hmq⟩
      rw [hp] at hqf
      simp at hqf
      rw [hqf]

/-- Witness for C8: one address exposing only the health service yields
the not-found error for an unrelated service name. -/
theorem GetServerAddress_spec_witness :
    GetServerAddress
        [("unix:run/a.sock", ["grpc.health.v1.Health"])] "OemLockService" =
      Except.error ("OemLockService" ++ " is not found.") :=
  (GetServerAddress_spec
    [("unix:run/a.sock", ["grpc.health.v1.Health"])] "OemLockService").1 (by decide)

/-- C9: the OpenWrt feature is enabled exactly when the mac80211-hwsim
enforcement build flag is present, the start-access-point toggle is set,
and the selected backend is crosvm; under the qemu backend, or without
the build flag, it is disabled. -/
theorem enabled_requires_crosvm_and_hwsim (e : Bool)
    (config : CuttlefishConfig) (inst : InstanceSpecific) :
    (OpenWrt.Enabled e config inst = true ↔
      e = true ∧ inst.start_ap = true ∧ config.vm_manager = CrosvmManagerName) ∧
    OpenWrt.Enabled e { config with vm_manager := QemuManagerName } inst = false ∧
    OpenWrt.Enabled false config inst = false := by
  have hq : (QemuManagerName == CrosvmManagerName) = false := by decide
  refine ⟨?_, ?_, rfl⟩
  · cases e <;> simp [OpenWrt.Enabled]
  · cases e <;> simp [OpenWrt.Enabled, hq]

/-- C10: neither enumeration result ever contains the gRPC reflection
service or the health service: `GetServiceList` drops both lines, and the
ls-with-no-arguments service array contains neither full name. -/
theorem reflection_and_health_never_listed (raw lines : List String) :
    kServiceServerReflection ∉ GetServiceList raw ∧
    kServiceHealth ∉ GetServiceList raw ∧
    kServiceServerReflection ∉ HandleLsCmd0Services lines ∧
    kServiceHealth ∉ HandleLsCmd0Services lines := by
  have hshort : ∀ s piece : String, piece ∈ Split s "." →
      piece ≠ kServiceServerReflection ∧ piece ≠ kServiceHealth := by
    intro s piece hp
    have hnd := split_pieces_no_delim s piece hp
    constructor
    · intro he
      rw [he] at hnd
      exact hnd (by decide)
    · intro he
      rw [he] at hnd
      exact hnd (by decide)
  have hlast : ∀ s : String,
      (Split s ".").getLastD "" ≠ kServiceServerReflection ∧
      (Split s ".").getLastD "" ≠ kServiceHealth := by
    intro s
    rcases getLastD_cases (Split s ".") "" with hmem | hd
    · exact hshort s _ hmem
    · rw [hd]
      exact ⟨by decide, by decide⟩
  refine ⟨?_, ?_, ?_, ?_⟩
  · intro h
    exact absurd (List.mem_filter.mp h).2 (by decide)
  · intro h
    exact absurd (List.mem_filter.mp h).2 (by decide)
  · intro h
    obtain ⟨s, _, heq⟩ := List.mem_map.mp h
    exact (hlast s).1 heq
  · intro h
    obtain ⟨s, _, heq⟩ := List.mem_map.mp h
    exact (hlast s).2 heq

end Cuttlefish
